import Mathlib

/-!
# Pointgram — Correspondence Tracking & Calibration Interchange Layer

A shallow embedding of the core of the Pointgram repository
(`main.py`, `gltf_exporter.py`) together with proofs about it.

Python dictionaries are embedded as association lists (`List (κ × α)`) whose
key lists are `Nodup`; dictionary lookup is `assocLookup`, deletion is
`assocErase`, and in-place mutation of one entry is `assocUpdate`.  Floating
point coordinates are embedded as rationals; quantities that the code derives
through transcendental functions (`atan`, `sqrt`) live in `ℝ`.
-/

namespace Pointgram

/-- Dictionary lookup on an association list (Python `d[k]` / `d.get(k)`). -/
def assocLookup {κ α : Type} [DecidableEq κ] (k : κ) : List (κ × α) → Option α
  | [] => none
  | (k', v) :: rest => if k = k' then some v else assocLookup k rest

/-- The keys of an association list (Python `d.keys()`). -/
def dictKeys {κ α : Type} (d : List (κ × α)) : List κ := d.map Prod.fst

/-- Remove the (first) entry with key `k` (Python `del d[k]`; on `Nodup`
keys this is exact dictionary deletion). -/
def assocErase {κ α : Type} [DecidableEq κ] (k : κ) : List (κ × α) → List (κ × α)
  | [] => []
  | (k', v) :: rest => if k = k' then rest else (k', v) :: assocErase k rest

/-- Replace the value stored at key `k` (Python `d[k] = f d[k]`). -/
def assocUpdate {κ α : Type} [DecidableEq κ] (k : κ) (f : α → α) :
    List (κ × α) → List (κ × α)
  | [] => []
  | (k', v) :: rest => if k = k' then (k', f v) :: rest else (k', v) :: assocUpdate k f rest

/-- A 2-D pixel coordinate (`QPointF` in the source). -/
abbrev Coord := ℚ × ℚ

/-- Observations of one track: image index → coordinate
(the inner dicts of `self.point_data`). -/
abbrev TrackObs := List (Nat × Coord)

/-- The dictionary `self.point_data`: track (point-set) id → observations. -/
abbrev PointData := List (Nat × TrackObs)

/-! ## SolverInputBuilder (`_populate_colmap_database`, main.py:1162–1182, 1243–1278) -/

/-- The list `sorted(self.point_data.keys())` (main.py:1167).  Python's `sorted` is
embedded as insertion sort; on `Nodup` keys every correct sort agrees. -/
def sortedSetIds (pd : PointData) : List Nat :=
  List.insertionSort (· ≤ ·) (dictKeys pd)

/-- The test `img_idx in self.point_data[set_id]` — does track `sid` have an
observation in image `img`? -/
def observedB (pd : PointData) (img : Nat) (sid : Nat) : Bool :=
  match assocLookup sid pd with
  | some obs => (assocLookup img obs).isSome
  | none => false

/-- The inner loop of `_populate_colmap_database` (main.py:1169–1181): walk
the given track ids, and for each track observed in image `img` append the
keypoint record `(x, y, 1.0, 0.0)` and record `set_id ↦ current_keypoint_idx`,
incrementing the counter `k`. -/
def buildImage (pd : PointData) (img : Nat) :
    List Nat → Nat → (List (ℚ × ℚ × ℚ × ℚ) × List (Nat × Nat))
  | [], _ => ([], [])
  | sid :: rest, k =>
    match assocLookup sid pd with
    | some obs =>
      match assocLookup img obs with
      | some c =>
        let r := buildImage pd img rest (k + 1)
        ((c.1, c.2, 1, 0) :: r.1, (sid, k) :: r.2)
      | none => buildImage pd img rest k
    | none => buildImage pd img rest k

/-- The list `keypoints_per_image[img_idx]` after the build (main.py:1170–1178). -/
def keypointsPerImage (pd : PointData) (img : Nat) : List (ℚ × ℚ × ℚ × ℚ) :=
  (buildImage pd img (sortedSetIds pd) 0).1

/-- The dictionary `self.keypoint_maps[img_idx]` after the build (main.py:1180):
track id → keypoint index within image `img`. -/
def keypointMap (pd : PointData) (img : Nat) : List (Nat × Nat) :=
  (buildImage pd img (sortedSetIds pd) 0).2

/-- The track ids observed in image `img`, in ascending id order: exactly
the keys that `keypointMap pd img` enumerates. -/
def observedIds (pd : PointData) (img : Nat) : List Nat :=
  (sortedSetIds pd).filter (fun sid => observedB pd img sid)

/-- The inverse map `{v: k for k, v in set_map.items()}` (main.py:1685). -/
def invKeypointMap (m : List (Nat × Nat)) : List (Nat × Nat) :=
  m.map Prod.swap

/-- The intersection `set(keypoint_maps[idx1].keys()) & set(keypoint_maps[idx2].keys())`
(main.py:1253–1255), kept in the key order of the first map. -/
def commonSets (m1 m2 : List (Nat × Nat)) : List Nat :=
  (dictKeys m1).filter (fun sid => (assocLookup sid m2).isSome)

/-- The match list written for the image pair `(i, j)` (main.py:1257–1263):
one entry `(kp_idx1, kp_idx2)` per track observed in both images; an empty
intersection yields an empty list and nothing is written for the pair. -/
def matchesFor (pd : PointData) (i j : Nat) : List (Nat × Nat) :=
  let mi := keypointMap pd i
  let mj := keypointMap pd j
  (commonSets mi mj).filterMap (fun sid =>
    match assocLookup sid mi, assocLookup sid mj with
    | some a, some b => some (a, b)
    | _, _ => none)

/-! ## Reconstruction model selection (`run_calibration`, main.py:1518–1570) -/

/-- One reconstruction model as seen by the selection code: its count of
registered images (`rec.num_reg_images()`) and of 3-D points
(`rec.num_points3D()`). -/
structure RecModel where
  numRegImages : Nat
  numPoints3D : Nat
deriving DecidableEq

/-- The selection loop of main.py:1543–1554: walk the returned models in
iteration order keeping the running maximum of registered-image counts
(`max_reg_images`, initially `-1`) and the first model that strictly
exceeded it. -/
def selectLoop : List (Nat × RecModel) → Int → Option (Nat × RecModel) → Option (Nat × RecModel)
  | [], _, best => best
  | (rid, m) :: rest, maxReg, best =>
    if (m.numRegImages : Int) > maxReg then
      selectLoop rest (m.numRegImages : Int) (some (rid, m))
    else
      selectLoop rest maxReg best

/-- The value `largest_rec` after the loop (main.py:1543–1554). -/
def selectModel (recs : List (Nat × RecModel)) : Option (Nat × RecModel) :=
  selectLoop recs (-1) none

/-- Outcome of the result-parsing step of `run_calibration`. -/
inductive CalibOutcome where
  | noReconstruction
  | insufficientRegistered
  | selected (rid : Nat) (m : RecModel)
deriving DecidableEq

/-- main.py:1529–1570: empty model dictionary → "no reconstruction models"
warning and early return with `self.calibration_results` still `None`;
otherwise the largest model is selected and it must have at least 2
registered images. -/
def parseReconstructions (recs : List (Nat × RecModel)) : CalibOutcome :=
  if recs.isEmpty then CalibOutcome.noReconstruction
  else
    match selectModel recs with
    | none => CalibOutcome.insufficientRegistered
    | some (rid, m) =>
      if m.numRegImages < 2 then CalibOutcome.insufficientRegistered
      else CalibOutcome.selected rid m

/-- Modelled from the spec (§4.4 Failure): the spec's canonical selection
policy — greatest registered-image count, ties broken by greater 3-D point
count, then by lowest model id.  `specBetterModel a b` holds when `b` is
strictly preferred to `a` under that policy. -/
def specBetterModel (a b : Nat × RecModel) : Bool :=
  if b.2.numRegImages > a.2.numRegImages then true
  else if b.2.numRegImages = a.2.numRegImages ∧ b.2.numPoints3D > a.2.numPoints3D then true
  else if b.2.numRegImages = a.2.numRegImages ∧ b.2.numPoints3D = a.2.numPoints3D ∧ b.1 < a.1
    then true
  else false

/-- Modelled from the spec (§4.4 Failure): select a model by the spec's
canonical policy. -/
def specSelectModel : List (Nat × RecModel) → Option (Nat × RecModel)
  | [] => none
  | x :: rest => some (rest.foldl (fun best y => if specBetterModel best y then y else best) x)

/-! ## Vectors, matrices and poses over ℚ -/

/-- A 3-vector of rationals. -/
structure Vec3 where
  x : ℚ
  y : ℚ
  z : ℚ
deriving DecidableEq

def Vec3.add (a b : Vec3) : Vec3 := ⟨a.x + b.x, a.y + b.y, a.z + b.z⟩

def Vec3.neg (a : Vec3) : Vec3 := ⟨-a.x, -a.y, -a.z⟩

def Vec3.dot (a b : Vec3) : ℚ := a.x * b.x + a.y * b.y + a.z * b.z

/-- A 3×3 rational matrix, stored by rows. -/
structure Mat3 where
  r0 : Vec3
  r1 : Vec3
  r2 : Vec3
deriving DecidableEq

def Mat3.col0 (A : Mat3) : Vec3 := ⟨A.r0.x, A.r1.x, A.r2.x⟩

def Mat3.col1 (A : Mat3) : Vec3 := ⟨A.r0.y, A.r1.y, A.r2.y⟩

def Mat3.col2 (A : Mat3) : Vec3 := ⟨A.r0.z, A.r1.z, A.r2.z⟩

def Mat3.transpose (A : Mat3) : Mat3 := ⟨A.col0, A.col1, A.col2⟩

def Mat3.mulVec (A : Mat3) (v : Vec3) : Vec3 :=
  ⟨A.r0.dot v, A.r1.dot v, A.r2.dot v⟩

def Mat3.mul (A B : Mat3) : Mat3 :=
  ⟨⟨A.r0.dot B.col0, A.r0.dot B.col1, A.r0.dot B.col2⟩,
   ⟨A.r1.dot B.col0, A.r1.dot B.col1, A.r1.dot B.col2⟩,
   ⟨A.r2.dot B.col0, A.r2.dot B.col1, A.r2.dot B.col2⟩⟩

def Mat3.id : Mat3 := ⟨⟨1, 0, 0⟩, ⟨0, 1, 0⟩, ⟨0, 0, 1⟩⟩

/-- A rigid transform `x ↦ R x + t` (a `pycolmap.Rigid3d`). -/
structure Pose where
  R : Mat3
  t : Vec3
deriving DecidableEq

/-- The action `pose * point` for a `pycolmap.Rigid3d` (main.py:1776). -/
def Pose.apply (p : Pose) (v : Vec3) : Vec3 :=
  (p.R.mulVec v).add p.t

/-! ## ResultMapper pose inversion (`run_calibration`, main.py:1643–1658) -/

/-- main.py:1652–1653: `R_c2w = R_w2c.T`, `t_c2w = -R_c2w @ t_w2c`. -/
def invertPose (p : Pose) : Pose :=
  { R := p.R.transpose, t := (p.R.transpose.mulVec p.t).neg }

/-- A registered image as delivered by the solver, carrying its original app
image index (already resolved through the basename map) and its
world-to-camera pose. -/
structure SolverImage where
  imgIdx : Nat
  poseW2C : Pose
deriving DecidableEq

/-- The pose-extraction loop (main.py:1643–1658): for each registered image
store the inverted, camera-to-world pose under the original image index. -/
def extractPoses (imgs : List SolverImage) : List (Nat × Pose) :=
  imgs.map (fun im => (im.imgIdx, invertPose im.poseW2C))

/-! ## ReprojectionEvaluator (`run_calibration`, main.py:1761–1816) -/

/-- Camera intrinsics as used by the reprojection loop: the model check
(main.py:1783) and, for `SIMPLE_PINHOLE`, parameters `f, cx, cy`. -/
structure CameraParams where
  isSimplePinhole : Bool
  f : ℚ
  cx : ℚ
  cy : ℚ
deriving DecidableEq

/-- One 2-D observation of an image (`point2D`): its pixel location and the
id of the 3-D point it is linked to (`-1` when unlinked). -/
structure Obs2D where
  x : ℚ
  y : ℚ
  point3DId : Int
deriving DecidableEq

/-- The per-image reprojection loop (main.py:1761–1816).  For each 2-D
observation: require a valid, existing 3-D point id; require it to resolve
to an app track (`set_id`); transform the world point by the world-to-camera
pose; skip silently unless the depth exceeds `1e-6`; require the
`SIMPLE_PINHOLE` model; project `u = f·X/Z + cx`, `v = f·Y/Z + cy` and
record `(set_id, (observed − projected))`. -/
def evalImageErrors (pose : Pose) (cam : CameraParams)
    (points3D : List (Int × Vec3)) (setOf : List (Int × Nat)) :
    List Obs2D → List (Nat × (ℚ × ℚ))
  | [] => []
  | ob :: rest =>
    let tail := evalImageErrors pose cam points3D setOf rest
    if ob.point3DId ≠ -1 then
      match assocLookup ob.point3DId points3D with
      | some wp =>
        match assocLookup ob.point3DId setOf with
        | some sid =>
          let pc := pose.apply wp
          if pc.z > 1 / 1000000 then
            if cam.isSimplePinhole then
              (sid, (ob.x - (cam.f * (pc.x / pc.z) + cam.cx),
                     ob.y - (cam.f * (pc.y / pc.z) + cam.cy))) :: tail
            else tail
          else tail
        | none => tail
      | none => tail
    else tail

/-- The value `np.linalg.norm(error_vec)` (main.py:1798): the Euclidean magnitude of a
stored `(dx, dy)` error. -/
noncomputable def errorMagnitude (e : ℚ × ℚ) : ℝ :=
  Real.sqrt ((e.1 : ℝ) ^ 2 + (e.2 : ℝ) ^ 2)

/-! ## glTF export: camera definitions (gltf_exporter.py:142–150) -/

/-- The function `np.clip(x, lo, hi)`. -/
noncomputable def clip (x lo hi : ℝ) : ℝ := min (max x lo) hi

/-- gltf_exporter.py:145–146, 149: `yfov = π/2` when `|fy| < 1e-9`, else
`2·atan((h/2)/fy)`; then clipped to `[1e-6, π − 1e-6]`. -/
noncomputable def computeYfov (fy h : ℚ) : ℝ :=
  clip (if |fy| < 1 / 1000000000 then Real.pi / 2
        else 2 * Real.arctan (((h : ℝ) / 2) / (fy : ℝ)))
    (1 / 1000000) (Real.pi - 1 / 1000000)

/-- gltf_exporter.py:147–148, 150: aspect = `w/h` (or `1` when `h ≤ 0`) when
`|fx| < 1e-9` or `|h·fx| < 1e-9`, else `(w·fy)/(h·fx)`; then floored at
`1e-6`. -/
def computeAspect (fx fy w h : ℚ) : ℚ :=
  max (1 / 1000000)
    (if |fx| < 1 / 1000000000 ∨ |h * fx| < 1 / 1000000000 then
       (if h > 0 then w / h else 1)
     else (w * fy) / (h * fx))

/-- Modelled from the spec (§6 export contract): `yfov = 2·atan((h/2)/fy)`
clamped to `(1e-6, π−1e-6)`, with no epsilon guard on `fy`. -/
noncomputable def specYfov (fy h : ℚ) : ℝ :=
  clip (2 * Real.arctan (((h : ℝ) / 2) / (fy : ℝ))) (1 / 1000000) (Real.pi - 1 / 1000000)

/-- Modelled from the spec (§6 export contract):
`aspectRatio = (w·fy)/(h·fx)` floored at `1e-6`, with no epsilon guard. -/
def specAspect (fx fy w h : ℚ) : ℚ :=
  max (1 / 1000000) ((w * fy) / (h * fx))

/-! ## glTF export: camera nodes (gltf_exporter.py:171–206) -/

/-- An embedded IEEE value: finite (with its rational value) or one of the
non-finite floats. -/
inductive FVal where
  | fin (q : ℚ)
  | nan
  | inf
  | ninf
deriving DecidableEq

def FVal.isFinite : FVal → Bool
  | .fin _ => true
  | _ => false

def FVal.toRat : FVal → ℚ
  | .fin q => q
  | _ => 0

structure FVec3 where
  x : FVal
  y : FVal
  z : FVal
deriving DecidableEq

structure FMat3 where
  r0 : FVec3
  r1 : FVec3
  r2 : FVec3
deriving DecidableEq

def FVec3.allFinite (v : FVec3) : Bool :=
  v.x.isFinite && v.y.isFinite && v.z.isFinite

def FMat3.allFinite (A : FMat3) : Bool :=
  A.r0.allFinite && A.r1.allFinite && A.r2.allFinite

def FVec3.toVec3 (v : FVec3) : Vec3 := ⟨v.x.toRat, v.y.toRat, v.z.toRat⟩

def FMat3.toMat3 (A : FMat3) : Mat3 := ⟨A.r0.toVec3, A.r1.toVec3, A.r2.toVec3⟩

/-- The constant `OPENCV_TO_GLTF_ROT` (gltf_exporter.py:34–38). -/
def OPENCV_TO_GLTF_ROT : Mat3 := ⟨⟨1, 0, 0⟩, ⟨0, 0, 1⟩, ⟨0, -1, 0⟩⟩

/-- The constant `CAMERA_CONVENTION_ROT` (gltf_exporter.py:44–48). -/
def CAMERA_CONVENTION_ROT : Mat3 := ⟨⟨1, 0, 0⟩, ⟨0, -1, 0⟩, ⟨0, 0, -1⟩⟩

/-- The camera-node conversion (gltf_exporter.py:171–206) for one pose: the
shape checks are enforced by the types; the code skips the node when any
entry of `R` or `t` is NaN/Inf, and otherwise emits the transform
`R' = OPENCV_TO_GLTF_ROT · R · CAMERA_CONVENTION_ROT`,
`C' = OPENCV_TO_GLTF_ROT · t`.  No orthonormality check appears anywhere in
this code path. -/
def cameraNodeMatrix (R : FMat3) (t : FVec3) : Option (Mat3 × Vec3) :=
  if R.allFinite && t.allFinite then
    some (OPENCV_TO_GLTF_ROT.mul ((FMat3.toMat3 R).mul CAMERA_CONVENTION_ROT),
          OPENCV_TO_GLTF_ROT.mulVec t.toVec3)
  else none

/-- Modelled from the spec (§4.3 Validation): `R` is orthonormal within
tolerance `tol` when every entry of `Rᵀ·R − I` has absolute value at most
`tol`. -/
def orthonormalWithin (tol : ℚ) (A : Mat3) : Prop :=
  let D := A.transpose.mul A
  |D.r0.x - 1| ≤ tol ∧ |D.r0.y| ≤ tol ∧ |D.r0.z| ≤ tol ∧
  |D.r1.x| ≤ tol ∧ |D.r1.y - 1| ≤ tol ∧ |D.r1.z| ≤ tol ∧
  |D.r2.x| ≤ tol ∧ |D.r2.y| ≤ tol ∧ |D.r2.z - 1| ≤ tol

instance (tol : ℚ) (A : Mat3) : Decidable (orthonormalWithin tol A) := by
  unfold orthonormalWithin; infer_instance

/-! ## CorrespondenceStore (main.py:546–617) -/

inductive StoreError where
  | unknownTrack
  | duplicateObservation
  | unknownObservation
deriving DecidableEq

/-- The correspondence store: the monotone id counter
`self._next_point_set_id` and `self.point_data`. -/
structure Store where
  nextId : Nat
  pointData : PointData
deriving DecidableEq

/-- The method `create_new_point_set` (main.py:546–555): allocate
`self._next_point_set_id`, increment the counter, store the one-observation
track.  Returns the new store and the allocated id. -/
def createTrack (s : Store) (img : Nat) (c : Coord) : Store × Nat :=
  ({ nextId := s.nextId + 1,
     pointData := (s.nextId, [(img, c)]) :: s.pointData }, s.nextId)

/-- The method `add_point_to_set` (main.py:557–572): error (and no mutation) when the
set id is absent or the image already has an observation in the set;
otherwise record the observation. -/
def addObservation (s : Store) (sid img : Nat) (c : Coord) : Store × Option StoreError :=
  match assocLookup sid s.pointData with
  | none => (s, some StoreError.unknownTrack)
  | some obs =>
    match assocLookup img obs with
    | some _ => (s, some StoreError.duplicateObservation)
    | none =>
      ({ s with pointData := assocUpdate sid (fun o => (img, c) :: o) s.pointData }, none)

/-- The method `delete_point_observation` (main.py:574–617), with the marker resolved
to `(sid, img)` and the confirmation dialog answered Yes: delete the
observation; when the set becomes empty delete the set itself
(main.py:606–607).  The id counter is untouched. -/
def removeObservation (s : Store) (sid img : Nat) : Store × Option StoreError :=
  match assocLookup sid s.pointData with
  | none => (s, some StoreError.unknownTrack)
  | some obs =>
    match assocLookup img obs with
    | none => (s, some StoreError.unknownObservation)
    | some _ =>
      let obs' := assocErase img obs
      if obs'.isEmpty then
        ({ s with pointData := assocErase sid s.pointData }, none)
      else
        ({ s with pointData := assocUpdate sid (fun _ => obs') s.pointData }, none)

/-- One user-level mutation of the store. -/
inductive StoreOp where
  | create (img : Nat) (c : Coord)
  | add (sid img : Nat) (c : Coord)
  | remove (sid img : Nat)

/-- Apply one operation (keeping only the resulting store). -/
def stepOp (s : Store) : StoreOp → Store
  | .create img c => (createTrack s img c).1
  | .add sid img c => (addObservation s sid img c).1
  | .remove sid img => (removeObservation s sid img).1

/-- Run a sequence of operations. -/
def runOps (s : Store) : List StoreOp → Store
  | [] => s
  | op :: rest => runOps (stepOp s op) rest

/-- Store well-formedness: every live track id is below the counter.  This
holds for the empty store and is preserved by every operation. -/
def storeWF (s : Store) : Prop :=
  ∀ k ∈ dictKeys s.pointData, k < s.nextId

instance (s : Store) : Decidable (storeWF s) := by
  unfold storeWF; infer_instance

/-! ## Export call signature (`_do_export`, main.py:1845–1925 and
`export_scene_to_gltf`, gltf_exporter.py:51–57) -/

/-- The parameter list of `export_scene_to_gltf` (gltf_exporter.py:51–57). -/
def exportSceneToGltfParams : List String :=
  ["filename", "results", "image_paths", "image_dimensions", "generator_name"]

/-- The function `export_scene_to_gltf` declares no `**kwargs` catch-all. -/
def exportSceneToGltfHasVarKw : Bool := false

/-- The keyword arguments `_do_export` passes (main.py:1911–1918). -/
def doExportCallKwargs : List String :=
  ["filename", "results", "image_paths", "image_dimensions", "point_set_names",
   "generator_name"]

/-- Python call semantics: a call raises `TypeError` when some keyword
argument is not a declared parameter and there is no `**kwargs`. -/
def callRejectsKeywords (params : List String) (hasVarKw : Bool)
    (kwargs : List String) : Bool :=
  !hasVarKw && kwargs.any (fun k => !params.contains k)

/-- Outcome of one `_do_export` invocation. -/
inductive ExportOutcome where
  | failed (msg : String)
  | raisedTypeError
  | success
deriving DecidableEq

/-- The control flow of `_do_export` (main.py:1845–1925): the pre-checks
(pygltflib availability, presence and shape of `calibration_results`, image
dimensions) each return early with a failure message; once they all pass,
the call of `export_scene_to_gltf` (main.py:1911–1918) is evaluated — which
raises `TypeError` if its keyword arguments do not fit the callee's
signature — and only then can the success branch run. -/
def doExportFlow (pygltflibAvailable resultsPresent structureValid intrinsicsIsDict
    dimsOk : Bool) : ExportOutcome :=
  if !pygltflibAvailable then ExportOutcome.failed ("pygltflib not found")
  else if !resultsPresent then ExportOutcome.failed ("no calibration results")
  else if !structureValid then ExportOutcome.failed ("results incomplete")
  else if !intrinsicsIsDict then ExportOutcome.failed ("intrinsics not a dict")
  else if !dimsOk then ExportOutcome.failed ("image dimensions missing")
  else if callRejectsKeywords exportSceneToGltfParams exportSceneToGltfHasVarKw
      doExportCallKwargs then ExportOutcome.raisedTypeError
  else ExportOutcome.success

/-! ## Concrete instances used by witnesses and counterexamples -/

/-- Three tracks (ids 2, 0, 1, inserted out of order); track 2 observed in
images 0 and 1, track 0 only in image 0, track 1 only in image 1. -/
def pdW1 : PointData :=
  [(2, [(0, (1, 2)), (1, (3, 4))]), (0, [(0, (5, 6))]), (1, [(1, (7, 8))])]

/-- Four tracks; tracks 0 and 3 observed in both images 0 and 1. -/
def pdW2 : PointData :=
  [(0, [(0, (1, 1)), (1, (2, 2))]), (1, [(0, (3, 3))]), (2, [(1, (4, 4))]),
   (3, [(0, (5, 5)), (1, (6, 6))])]

/-- Scenario A data: exactly 3 tracks, each observed in both of 2 images. -/
def pdC3 : PointData :=
  [(0, [(0, (0, 0)), (1, (0, 1))]), (1, [(0, (1, 0)), (1, (1, 1))]),
   (2, [(0, (2, 0)), (1, (2, 1))])]

/-- A second scenario-A instance (distinct coordinates and id order). -/
def pdW3 : PointData :=
  [(7, [(0, (9, 9)), (1, (8, 8))]), (4, [(0, (1, 5)), (1, (2, 6))]),
   (5, [(0, (3, 7)), (1, (4, 8))])]

/-- Two models tied at 2 registered images; the later one has more 3-D
points. -/
def recsC4 : List (Nat × RecModel) := [(1, ⟨2, 1⟩), (2, ⟨2, 5⟩)]

/-- Two models with distinct registered-image counts. -/
def recsW4 : List (Nat × RecModel) := [(1, ⟨3, 1⟩), (2, ⟨2, 5⟩)]

/-- A store holding one track (id 0) with a single observation in image 0;
the counter has already advanced past the id. -/
def storeW : Store := ⟨1, [(0, [(0, (1, 1))])]⟩

/-- A 90° rotation about the z axis — orthonormal with determinant 1. -/
def rotZ90 : Mat3 := ⟨⟨0, 1, 0⟩, ⟨-1, 0, 0⟩, ⟨0, 0, 1⟩⟩

/-- One registered solver image with a nontrivial world-to-camera pose. -/
def solverImgsW : List SolverImage := [⟨0, ⟨rotZ90, ⟨1, 2, 3⟩⟩⟩]

/-- Identity world-to-camera pose. -/
def poseIdW : Pose := ⟨Mat3.id, ⟨0, 0, 0⟩⟩

/-- A simple-pinhole camera with `f = 1`, `cx = cy = 0`. -/
def camW : CameraParams := ⟨true, 1, 0, 0⟩

/-- One resolvable 3-D point in front of the camera. -/
def points3DW : List (Int × Vec3) := [(0, ⟨3, 4, 1⟩)]

/-- That point resolves to track 7. -/
def setOfW : List (Int × Nat) := [(0, 7)]

/-- One observation linked to the point, offset from the exact projection
by `(3, 4)`. -/
def obsListW : List Obs2D := [⟨6, 8, 0⟩]

/-- A 3-D point exactly at the camera plane (depth 0). -/
def points3DW0 : List (Int × Vec3) := [(1, ⟨5, 5, 0⟩)]

/-- The depth-0 point resolves to track 9. -/
def setOfW0 : List (Int × Nat) := [(1, 9)]

/-- An observation linked to the depth-0 point. -/
def obsW0 : Obs2D := ⟨1, 1, 1⟩

/-- A finite but badly scaled matrix: `2·I`, far from orthonormal. -/
def fmatTwoI : FMat3 :=
  ⟨⟨.fin 2, .fin 0, .fin 0⟩, ⟨.fin 0, .fin 2, .fin 0⟩, ⟨.fin 0, .fin 0, .fin 2⟩⟩

/-- The all-finite zero translation. -/
def fvecZeroF : FVec3 := ⟨.fin 0, .fin 0, .fin 0⟩

/-- A rotation matrix containing a NaN entry. -/
def fmatNan : FMat3 :=
  ⟨⟨.nan, .fin 0, .fin 0⟩, ⟨.fin 0, .fin 1, .fin 0⟩, ⟨.fin 0, .fin 0, .fin 1⟩⟩

/-- The all-finite identity matrix. -/
def fmatIdF : FMat3 :=
  ⟨⟨.fin 1, .fin 0, .fin 0⟩, ⟨.fin 0, .fin 1, .fin 0⟩, ⟨.fin 0, .fin 0, .fin 1⟩⟩

/-! ## Association-list lemmas -/

theorem mem_dictKeys_of_lookup {κ α : Type} [DecidableEq κ] {k : κ} {l : List (κ × α)}
    {v : α} (h : assocLookup k l = some v) : k ∈ dictKeys l := by
  induction l with
  | nil => simp [assocLookup] at h
  | cons p rest ih =>
    obtain ⟨k', v'⟩ := p
    simp only [assocLookup] at h
    by_cases hk : k = k'
    · simp [dictKeys, hk]
    · rw [if_neg hk] at h
      simp only [dictKeys, List.map_cons, List.mem_cons]
      exact Or.inr (ih h)

theorem lookup_isSome_iff_mem {κ α : Type} [DecidableEq κ] {k : κ} {l : List (κ × α)} :
    (assocLookup k l).isSome = true ↔ k ∈ dictKeys l := by
  induction l with
  | nil => simp [assocLookup, dictKeys]
  | cons p rest ih =>
    obtain ⟨k', v'⟩ := p
    simp only [assocLookup, dictKeys, List.map_cons, List.mem_cons]
    by_cases hk : k = k'
    · simp [hk]
    · simp only [if_neg hk, ih, dictKeys]
      exact ⟨Or.inr, fun h => h.resolve_left hk⟩

theorem assocLookup_zip_swap :
    ∀ {ks vs : List Nat}, ks.length = vs.length → vs.Nodup →
      ∀ {t v : Nat}, assocLookup t (ks.zip vs) = some v →
        assocLookup v (vs.zip ks) = some t := by
  intro ks
  induction ks with
  | nil => intro vs _ _ t v h; simp [assocLookup] at h
  | cons k0 ks ih =>
    intro vs hlen hvs t v h
    cases vs with
    | nil => simp at hlen
    | cons v0 vs =>
      simp only [List.zip_cons_cons, assocLookup] at h ⊢
      by_cases ht : t = k0
      · rw [if_pos ht] at h
        obtain rfl : v0 = v := by simpa using h
        rw [if_pos rfl]
        exact congrArg some ht.symm
      · rw [if_neg ht] at h
        have hlen' : ks.length = vs.length := by simpa using hlen
        have htail := ih hlen' hvs.of_cons h
        have hvvs : v ∈ vs := by
          have := mem_dictKeys_of_lookup htail
          rwa [dictKeys, List.map_fst_zip vs ks (le_of_eq hlen'.symm)] at this
        have hv0 : v ≠ v0 := by
          intro hvv
          exact (List.nodup_cons.mp hvs).1 (hvv ▸ hvvs)
        rw [if_neg hv0]
        exact htail

theorem assocLookup_eq_of_perm {κ α : Type} [DecidableEq κ] {l l' : List (κ × α)}
    (h : l.Perm l') (hnd : (dictKeys l).Nodup) (k : κ) :
    assocLookup k l = assocLookup k l' := by
  induction h with
  | nil => rfl
  | cons x h ih =>
    obtain ⟨k', v'⟩ := x
    simp only [assocLookup]
    by_cases hk : k = k'
    · rw [if_pos hk, if_pos hk]
    · rw [if_neg hk, if_neg hk]
      exact ih (by simpa [dictKeys] using (List.nodup_cons.mp hnd).2)
  | swap x y l =>
    obtain ⟨kx, vx⟩ := x
    obtain ⟨ky, vy⟩ := y
    have hxy : ky ≠ kx := by
      simp only [dictKeys, List.map_cons, List.nodup_cons, List.mem_cons] at hnd
      exact fun hk => hnd.1 (Or.inl hk)
    simp only [assocLookup]
    by_cases hky : k = ky
    · have hkx : k ≠ kx := fun hc => hxy (hky.symm.trans hc)
      rw [if_pos hky, if_neg hkx, if_pos hky]
    · by_cases hkx : k = kx
      · rw [if_neg hky, if_pos hkx, if_pos hkx]
      · rw [if_neg hky, if_neg hkx, if_neg hkx, if_neg hky]
  | trans h₁ h₂ ih₁ ih₂ =>
    refine (ih₁ hnd).trans (ih₂ ?_)
    exact (h₁.map Prod.fst).nodup hnd

/-! ## Keypoint-map structure lemmas -/

theorem buildImage_snd_eq (pd : PointData) (img : Nat) :
    ∀ (sids : List Nat) (k : Nat),
      (buildImage pd img sids k).2 =
        (sids.filter (fun sid => observedB pd img sid)).zip
          (List.range' k (sids.filter (fun sid => observedB pd img sid)).length) := by
  intro sids
  induction sids with
  | nil => intro k; simp [buildImage]
  | cons sid rest ih =>
    intro k
    simp only [buildImage, List.filter_cons]
    cases hpd : assocLookup sid pd with
    | none => simpa [observedB, hpd] using ih k
    | some obs =>
      cases hobs : assocLookup img obs with
      | none => simpa [observedB, hpd, hobs] using ih k
      | some c =>
        simp [observedB, hpd, hobs, ih (k + 1), List.range'_succ]

theorem buildImage_fst_length (pd : PointData) (img : Nat) :
    ∀ (sids : List Nat) (k : Nat),
      (buildImage pd img sids k).1.length = (buildImage pd img sids k).2.length := by
  intro sids
  induction sids with
  | nil => intro k; rfl
  | cons sid rest ih =>
    intro k
    cases hpd : assocLookup sid pd with
    | none => simp only [buildImage, hpd]; exact ih k
    | some obs =>
      cases hobs : assocLookup img obs with
      | none => simp only [buildImage, hpd, hobs]; exact ih k
      | some c => simp only [buildImage, hpd, hobs]; simpa using ih (k + 1)

theorem keypointMap_eq_zip (pd : PointData) (img : Nat) :
    keypointMap pd img =
      (observedIds pd img).zip (List.range' 0 (observedIds pd img).length) :=
  buildImage_snd_eq pd img (sortedSetIds pd) 0

theorem observedIds_nodup {pd : PointData} (h : (dictKeys pd).Nodup) (img : Nat) :
    (observedIds pd img).Nodup :=
  ((List.perm_insertionSort (· ≤ ·) (dictKeys pd)).symm.nodup h).filter _

theorem keypointMap_length (pd : PointData) (img : Nat) :
    (keypointMap pd img).length = (observedIds pd img).length := by
  rw [keypointMap_eq_zip, List.length_zip, List.length_range']
  exact min_self _

theorem keypointMap_map_fst (pd : PointData) (img : Nat) :
    (keypointMap pd img).map Prod.fst = observedIds pd img := by
  rw [keypointMap_eq_zip]
  exact List.map_fst_zip _ _ (le_of_eq (List.length_range' _ _ _).symm)

theorem keypointMap_map_snd (pd : PointData) (img : Nat) :
    (keypointMap pd img).map Prod.snd = List.range' 0 (observedIds pd img).length := by
  rw [keypointMap_eq_zip]
  exact List.map_snd_zip _ _ (le_of_eq (List.length_range' _ _ _))

theorem keypointMap_lookup_inv {pd : PointData}
    {img t k : Nat} (hl : assocLookup t (keypointMap pd img) = some k) :
    assocLookup k (invKeypointMap (keypointMap pd img)) = some t := by
  rw [keypointMap_eq_zip] at hl
  rw [invKeypointMap, keypointMap_eq_zip, List.zip_swap]
  exact assocLookup_zip_swap (List.length_range' _ _ _).symm (List.nodup_range' _ _) hl

theorem sortedSetIds_eq_of_perm {pd pd' : PointData} (h : pd.Perm pd') :
    sortedSetIds pd = sortedSetIds pd' := by
  refine List.eq_of_perm_of_sorted ?_ (List.sorted_insertionSort _ _)
    (List.sorted_insertionSort _ _)
  have h1 : (List.insertionSort (· ≤ ·) (dictKeys pd)).Perm (dictKeys pd) :=
    List.perm_insertionSort _ _
  have h2 : (dictKeys pd).Perm (dictKeys pd') := h.map Prod.fst
  have h3 : (dictKeys pd').Perm (List.insertionSort (· ≤ ·) (dictKeys pd')) :=
    (List.perm_insertionSort _ _).symm
  exact (h1.trans h2).trans h3

theorem buildImage_congr {pd pd' : PointData}
    (h : ∀ sid, assocLookup sid pd = assocLookup sid pd') (img : Nat) :
    ∀ (sids : List Nat) (k : Nat), buildImage pd img sids k = buildImage pd' img sids k := by
  intro sids
  induction sids with
  | nil => intro k; rfl
  | cons sid rest ih =>
    intro k
    cases hl : assocLookup sid pd' with
    | none => simp only [buildImage, h sid, hl]; exact ih k
    | some obs =>
      cases hobs : assocLookup img obs with
      | none => simp only [buildImage, h sid, hl, hobs]; exact ih k
      | some c => simp only [buildImage, h sid, hl, hobs, ih (k + 1)]

theorem keypointMap_eq_of_perm {pd pd' : PointData} (h : pd.Perm pd')
    (hnd : (dictKeys pd).Nodup) (img : Nat) :
    keypointMap pd' img = keypointMap pd img := by
  unfold keypointMap
  rw [← sortedSetIds_eq_of_perm h,
    buildImage_congr (fun sid => (assocLookup_eq_of_perm h hnd sid).symm) img]

theorem keypointMap_lookup_inj {pd : PointData}
    {img t t' k : Nat} (h1 : assocLookup t (keypointMap pd img) = some k)
    (h2 : assocLookup t' (keypointMap pd img) = some k) : t = t' := by
  have i1 := keypointMap_lookup_inv h1
  have i2 := keypointMap_lookup_inv h2
  rw [i1] at i2
  exact (Option.some.injEq _ _).mp i2

theorem mem_commonSets {m1 m2 : List (Nat × Nat)} {t : Nat} :
    t ∈ commonSets m1 m2 ↔
      ((assocLookup t m1).isSome = true ∧ (assocLookup t m2).isSome = true) := by
  simp only [commonSets, List.mem_filter, lookup_isSome_iff_mem]

theorem matchOption_eq_some {mi mj : List (Nat × Nat)} {sid a b : Nat} :
    (match assocLookup sid mi, assocLookup sid mj with
     | some a', some b' => some (a', b')
     | _, _ => none) = some (a, b) ↔
    (assocLookup sid mi = some a ∧ assocLookup sid mj = some b) := by
  cases h1 : assocLookup sid mi <;> cases h2 : assocLookup sid mj <;> simp

theorem length_filterMap_all_some {α β : Type} {f : α → Option β} :
    ∀ {l : List α}, (∀ a ∈ l, (f a).isSome = true) →
      (l.filterMap f).length = l.length := by
  intro l
  induction l with
  | nil => intro _; rfl
  | cons a rest ih =>
    intro h
    have ha := h a (List.mem_cons_self a rest)
    obtain ⟨b, hb⟩ := Option.isSome_iff_exists.mp ha
    rw [List.filterMap_cons, hb, List.length_cons, List.length_cons,
      ih (fun x hx => h x (List.mem_cons_of_mem a hx))]

theorem mem_matchesFor {pd : PointData} {i j a b : Nat} :
    (a, b) ∈ matchesFor pd i j ↔
      ∃ t, assocLookup t (keypointMap pd i) = some a ∧
           assocLookup t (keypointMap pd j) = some b := by
  simp only [matchesFor, List.mem_filterMap]
  constructor
  · rintro ⟨sid, _, hf⟩
    exact ⟨sid, matchOption_eq_some.mp hf⟩
  · rintro ⟨t, h1, h2⟩
    refine ⟨t, mem_commonSets.mpr ⟨?_, ?_⟩, matchOption_eq_some.mpr ⟨h1, h2⟩⟩
    · rw [h1]; rfl
    · rw [h2]; rfl

/-- C1: For every solver-input build and image index, the per-image keypoint
index map enumerates the tracks observed in that image in ascending trackId
order and assigns them the dense index sequence `0..n-1`; the map is exactly
invertible through the inverse dictionary; and rebuilding with unchanged
track contents (any reordering of the same entries) yields the identical
map. -/
theorem C1_keypoint_map_dense_and_invertible
    (pd : PointData) (img : Nat) (h : (dictKeys pd).Nodup) :
    ((keypointMap pd img).map Prod.snd = List.range (keypointMap pd img).length) ∧
    ((keypointMap pd img).map Prod.fst = observedIds pd img) ∧
    (∀ t k, assocLookup t (keypointMap pd img) = some k →
      assocLookup k (invKeypointMap (keypointMap pd img)) = some t) ∧
    (∀ pd' : PointData, pd.Perm pd' → keypointMap pd' img = keypointMap pd img) := by
  refine ⟨?_, keypointMap_map_fst pd img,
    fun t k hk => keypointMap_lookup_inv hk,
    fun pd' hp => keypointMap_eq_of_perm hp h img⟩
  rw [keypointMap_map_snd, keypointMap_length, List.range_eq_range']

/-- Witness for C1 at a concrete store. -/
theorem C1_keypoint_map_dense_and_invertible_witness :
    (dictKeys pdW1).Nodup ∧
    (((keypointMap pdW1 0).map Prod.snd = List.range (keypointMap pdW1 0).length) ∧
     ((keypointMap pdW1 0).map Prod.fst = observedIds pdW1 0) ∧
     (∀ t k, assocLookup t (keypointMap pdW1 0) = some k →
       assocLookup k (invKeypointMap (keypointMap pdW1 0)) = some t) ∧
     (∀ pd' : PointData, pdW1.Perm pd' → keypointMap pd' 0 = keypointMap pdW1 0)) :=
  ⟨by decide, C1_keypoint_map_dense_and_invertible pdW1 0 (by decide)⟩

/-- C2: For every image pair, the match list holds exactly one match
`(indexMap i t, indexMap j t)` per track `t` observed in both images and
nothing else; empty intersections yield the empty list; a track observed in
only one of the two images contributes to no match; and the list holds no
duplicate pair. -/
theorem C2_matches_are_exactly_common_tracks
    (pd : PointData) (i j : Nat) (h : (dictKeys pd).Nodup) :
    (∀ a b : Nat, (a, b) ∈ matchesFor pd i j ↔
      ∃ t, assocLookup t (keypointMap pd i) = some a ∧
           assocLookup t (keypointMap pd j) = some b) ∧
    (matchesFor pd i j).Nodup ∧
    ((matchesFor pd i j).length =
      (commonSets (keypointMap pd i) (keypointMap pd j)).length) ∧
    (commonSets (keypointMap pd i) (keypointMap pd j) = [] → matchesFor pd i j = []) ∧
    (∀ t a, assocLookup t (keypointMap pd i) = some a →
      assocLookup t (keypointMap pd j) = none →
      ∀ b, (a, b) ∉ matchesFor pd i j) := by
  have hkeys : (dictKeys (keypointMap pd i)).Nodup := by
    rw [dictKeys, keypointMap_map_fst]
    exact observedIds_nodup h i
  have hcs : (commonSets (keypointMap pd i) (keypointMap pd j)).Nodup :=
    hkeys.filter _
  refine ⟨fun a b => mem_matchesFor, ?_, ?_, ?_, ?_⟩
  · refine List.Nodup.filterMap ?_ hcs
    intro s s' p hp hp'
    obtain ⟨a, b⟩ := p
    have h1 := matchOption_eq_some.mp hp
    have h2 := matchOption_eq_some.mp hp'
    exact keypointMap_lookup_inj h1.1 h2.1
  · refine length_filterMap_all_some ?_
    intro sid hsid
    obtain ⟨h1, h2⟩ := mem_commonSets.mp hsid
    obtain ⟨a, ha⟩ := Option.isSome_iff_exists.mp h1
    obtain ⟨b, hb⟩ := Option.isSome_iff_exists.mp h2
    rw [ha, hb]
    rfl
  · intro hempty
    simp only [matchesFor, hempty, List.filterMap_nil]
  · intro t a hti htj b hmem
    obtain ⟨t', h1, h2⟩ := mem_matchesFor.mp hmem
    have : t = t' := keypointMap_lookup_inj hti h1
    rw [← this, htj] at h2
    exact Option.noConfusion h2

/-- Witness for C2 at a concrete store and image pair. -/
theorem C2_matches_are_exactly_common_tracks_witness :
    (dictKeys pdW2).Nodup ∧
    ((∀ a b : Nat, (a, b) ∈ matchesFor pdW2 0 1 ↔
      ∃ t, assocLookup t (keypointMap pdW2 0) = some a ∧
           assocLookup t (keypointMap pdW2 1) = some b) ∧
     (matchesFor pdW2 0 1).Nodup ∧
     ((matchesFor pdW2 0 1).length =
       (commonSets (keypointMap pdW2 0) (keypointMap pdW2 1)).length) ∧
     (commonSets (keypointMap pdW2 0) (keypointMap pdW2 1) = [] →
       matchesFor pdW2 0 1 = []) ∧
     (∀ t a, assocLookup t (keypointMap pdW2 0) = some a →
       assocLookup t (keypointMap pdW2 1) = none →
       ∀ b, (a, b) ∉ matchesFor pdW2 0 1)) :=
  ⟨by decide, C2_matches_are_exactly_common_tracks pdW2 0 1 (by decide)⟩

/-- C3 counterexample: with exactly 2 images and exactly 3 tracks each
observed in both images, the build produces 3 keypoints per image — not the
claimed 2 — (and 3 matches for the single pair). -/
theorem C3_counterexample_three_keypoints :
    (dictKeys pdC3).Nodup ∧ (dictKeys pdC3).length = 3 ∧
    (∀ sid ∈ dictKeys pdC3,
      observedB pdC3 0 sid = true ∧ observedB pdC3 1 sid = true) ∧
    (keypointsPerImage pdC3 0).length = 3 ∧
    (keypointsPerImage pdC3 1).length = 3 ∧
    (matchesFor pdC3 0 1).length = 3 ∧
    (keypointsPerImage pdC3 0).length ≠ 2 := by decide

theorem keypointsPerImage_length (pd : PointData) (img : Nat) :
    (keypointsPerImage pd img).length = (keypointMap pd img).length :=
  buildImage_fst_length pd img (sortedSetIds pd) 0

theorem observedIds_eq_sorted_of_all {pd : PointData} {img : Nat}
    (hobs : ∀ sid ∈ dictKeys pd, observedB pd img sid = true) :
    observedIds pd img = sortedSetIds pd := by
  rw [observedIds, List.filter_eq_self]
  intro sid hs
  exact hobs sid ((List.perm_insertionSort _ _).mem_iff.mp hs)

/-- C3 (amended): given exactly 2 images and exactly 3 tracks, each track
observed in both images, the build produces exactly 3 keypoints per image
and exactly 3 matches for the single image pair. -/
theorem C3_scenario_a_counts (pd : PointData) (h : (dictKeys pd).Nodup)
    (h3 : (dictKeys pd).length = 3)
    (hobs : ∀ sid ∈ dictKeys pd,
      observedB pd 0 sid = true ∧ observedB pd 1 sid = true) :
    (keypointsPerImage pd 0).length = 3 ∧
    (keypointsPerImage pd 1).length = 3 ∧
    (matchesFor pd 0 1).length = 3 := by
  have hsortlen : (sortedSetIds pd).length = 3 :=
    ((List.perm_insertionSort (· ≤ ·) (dictKeys pd)).length_eq).trans h3
  have hobs0 : observedIds pd 0 = sortedSetIds pd :=
    observedIds_eq_sorted_of_all (fun sid hs => (hobs sid hs).1)
  have hobs1 : observedIds pd 1 = sortedSetIds pd :=
    observedIds_eq_sorted_of_all (fun sid hs => (hobs sid hs).2)
  have hk0 : (keypointsPerImage pd 0).length = 3 := by
    rw [keypointsPerImage_length, keypointMap_length, hobs0, hsortlen]
  have hk1 : (keypointsPerImage pd 1).length = 3 := by
    rw [keypointsPerImage_length, keypointMap_length, hobs1, hsortlen]
  refine ⟨hk0, hk1, ?_⟩
  have hlen := (C2_matches_are_exactly_common_tracks pd 0 1 h).2.2.1
  rw [hlen]
  have : commonSets (keypointMap pd 0) (keypointMap pd 1) = observedIds pd 0 := by
    rw [commonSets, dictKeys, keypointMap_map_fst, List.filter_eq_self]
    intro sid hs
    rw [lookup_isSome_iff_mem, dictKeys, keypointMap_map_fst, hobs1]
    rw [hobs0] at hs
    exact hs
  rw [this, hobs0, hsortlen]

/-- Witness for the amended C3 at a concrete scenario-A store. -/
theorem C3_scenario_a_counts_witness :
    ((dictKeys pdW3).Nodup ∧ (dictKeys pdW3).length = 3 ∧
     (∀ sid ∈ dictKeys pdW3,
       observedB pdW3 0 sid = true ∧ observedB pdW3 1 sid = true)) ∧
    ((keypointsPerImage pdW3 0).length = 3 ∧
     (keypointsPerImage pdW3 1).length = 3 ∧
     (matchesFor pdW3 0 1).length = 3) :=
  ⟨⟨by decide, by decide, by decide⟩,
   C3_scenario_a_counts pdW3 (by decide) (by decide) (by decide)⟩

/-! ## Model-selection lemmas -/

theorem selectLoop_firstMax :
    ∀ (rest : List (Nat × RecModel)) (cur : Nat × RecModel),
      ∃ r, selectLoop rest (cur.2.numRegImages : Int) (some cur) = some r ∧
        ∃ l₁ l₂, cur :: rest = l₁ ++ r :: l₂ ∧
          (∀ p ∈ l₁, p.2.numRegImages < r.2.numRegImages) ∧
          (∀ p ∈ l₂, p.2.numRegImages ≤ r.2.numRegImages) := by
  intro rest
  induction rest with
  | nil =>
    intro cur
    exact ⟨cur, rfl, [], [], rfl, by simp, by simp⟩
  | cons p rest ih =>
    intro cur
    obtain ⟨rid, m⟩ := p
    by_cases hgt : ((m.numRegImages : Int) > (cur.2.numRegImages : Int))
    · obtain ⟨r, hsel, l₁, l₂, hsplit, hl₁, hl₂⟩ := ih (rid, m)
      have hcur_lt_m : cur.2.numRegImages < m.numRegImages := by exact_mod_cast hgt
      have hm_le_r : m.numRegImages ≤ r.2.numRegImages := by
        cases l₁ with
        | nil =>
          injection hsplit with he _
          rw [← he]
        | cons q l₁' =>
          injection hsplit with he _
          have hq := hl₁ q (List.mem_cons_self q l₁')
          rw [← he] at hq
          exact le_of_lt hq
      refine ⟨r, ?_, cur :: l₁, l₂, ?_, ?_, hl₂⟩
      · simp only [selectLoop, if_pos hgt]
        exact hsel
      · rw [List.cons_append, ← hsplit]
      · intro q hq
        rcases List.mem_cons.mp hq with hq | hq
        · subst hq
          exact lt_of_lt_of_le hcur_lt_m hm_le_r
        · exact hl₁ q hq
    · obtain ⟨r, hsel, l₁, l₂, hsplit, hl₁, hl₂⟩ := ih cur
      have hle : m.numRegImages ≤ cur.2.numRegImages := by
        have := not_lt.mp hgt
        exact_mod_cast this
      refine ⟨r, ?_, ?_⟩
      · simp only [selectLoop, if_neg hgt]
        exact hsel
      · cases l₁ with
        | nil =>
          injection hsplit with he ht
          refine ⟨[], (rid, m) :: rest, by rw [List.nil_append, he], by simp, ?_⟩
          intro q hq
          rcases List.mem_cons.mp hq with hq | hq
          · subst hq
            rw [← he]
            exact hle
          · exact hl₂ q (ht ▸ hq)
        | cons c l₁' =>
          injection hsplit with he ht
          have hcur_lt : cur.2.numRegImages < r.2.numRegImages :=
            he ▸ hl₁ c (List.mem_cons_self c l₁')
          refine ⟨cur :: (rid, m) :: l₁', l₂, ?_, ?_, hl₂⟩
          · rw [ht]
            simp
          · intro q hq
            rcases List.mem_cons.mp hq with hq | hq
            · subst hq
              exact hcur_lt
            · rcases List.mem_cons.mp hq with hq | hq
              · subst hq
                exact lt_of_le_of_lt hle hcur_lt
              · exact hl₁ q (he ▸ List.mem_cons_of_mem c hq)

theorem selectModel_firstMax (recs : List (Nat × RecModel)) (hne : recs ≠ []) :
    ∃ r, selectModel recs = some r ∧
      ∃ l₁ l₂, recs = l₁ ++ r :: l₂ ∧
        (∀ p ∈ l₁, p.2.numRegImages < r.2.numRegImages) ∧
        (∀ p ∈ l₂, p.2.numRegImages ≤ r.2.numRegImages) := by
  cases recs with
  | nil => exact absurd rfl hne
  | cons p rest =>
    obtain ⟨rid, m⟩ := p
    have hfirst : ((m.numRegImages : Int) > (-1 : Int)) := by
      have : (0 : Int) ≤ (m.numRegImages : Int) := Int.natCast_nonneg _
      omega
    obtain ⟨r, hsel, hdec⟩ := selectLoop_firstMax rest (rid, m)
    refine ⟨r, ?_, hdec⟩
    rw [selectModel]
    simp only [selectLoop, if_pos hfirst]
    exact hsel

/-- C4 counterexample: two models tied at 2 registered images, the later one
with more 3-D points.  The code keeps the first model of the iteration; the
spec's tie-break policy (greater point count, then lower id) would select
the second. -/
theorem C4_counterexample_tiebreak :
    parseReconstructions recsC4 = CalibOutcome.selected 1 ⟨2, 1⟩ ∧
    specSelectModel recsC4 = some (2, ⟨2, 5⟩) ∧
    CalibOutcome.selected 1 (⟨2, 1⟩ : RecModel) ≠ CalibOutcome.selected 2 ⟨2, 5⟩ := by
  decide

/-- C4 (amended): if the solver returns no reconstruction models the run
fails with the no-reconstruction outcome (and no calibration result is
produced); when models are returned, the run selects the model with the
greatest count of registered images, ties broken by keeping the earliest
model in the returned collection's iteration order (3-D point count and
model id are not consulted), and additionally fails unless the selected
model has at least 2 registered images. -/
theorem C4_model_selection :
    (parseReconstructions [] = CalibOutcome.noReconstruction) ∧
    (∀ (recs : List (Nat × RecModel)) (rid : Nat) (m : RecModel),
      parseReconstructions recs = CalibOutcome.selected rid m →
      2 ≤ m.numRegImages ∧
      ∃ l₁ l₂, recs = l₁ ++ (rid, m) :: l₂ ∧
        (∀ p ∈ l₁, p.2.numRegImages < m.numRegImages) ∧
        (∀ p ∈ recs, p.2.numRegImages ≤ m.numRegImages)) := by
  refine ⟨rfl, ?_⟩
  intro recs rid m hp
  by_cases hemp : recs.isEmpty
  · rw [parseReconstructions, if_pos hemp] at hp
    exact absurd hp (by simp)
  · rw [parseReconstructions, if_neg hemp] at hp
    obtain ⟨r, hsel, l₁, l₂, hsplit, hl₁, hl₂⟩ :=
      selectModel_firstMax recs (by simpa using hemp)
    obtain ⟨rid', m'⟩ := r
    rw [hsel] at hp
    change (if m'.numRegImages < 2 then CalibOutcome.insufficientRegistered
      else CalibOutcome.selected rid' m') = CalibOutcome.selected rid m at hp
    by_cases h2 : m'.numRegImages < 2
    · rw [if_pos h2] at hp
      exact absurd hp (by simp)
    · rw [if_neg h2] at hp
      simp only [CalibOutcome.selected.injEq] at hp
      obtain ⟨rfl, rfl⟩ := hp
      refine ⟨not_lt.mp h2, l₁, l₂, hsplit, hl₁, ?_⟩
      intro p hpmem
      rw [hsplit] at hpmem
      rcases List.mem_append.mp hpmem with hpm | hpm
      · exact le_of_lt (hl₁ p hpm)
      · rcases List.mem_cons.mp hpm with hpm | hpm
        · subst hpm
          exact le_refl _
        · exact hl₂ p hpm

/-- Witness for the amended C4 at a concrete model collection. -/
theorem C4_model_selection_witness :
    parseReconstructions recsW4 = CalibOutcome.selected 1 ⟨3, 1⟩ ∧
    (2 ≤ (⟨3, 1⟩ : RecModel).numRegImages ∧
     ∃ l₁ l₂, recsW4 = l₁ ++ (1, (⟨3, 1⟩ : RecModel)) :: l₂ ∧
       (∀ p ∈ l₁, p.2.numRegImages < (⟨3, 1⟩ : RecModel).numRegImages) ∧
       (∀ p ∈ recsW4, p.2.numRegImages ≤ (⟨3, 1⟩ : RecModel).numRegImages)) :=
  ⟨by decide, C4_model_selection.2 recsW4 1 ⟨3, 1⟩ (by decide)⟩

/-! ## CorrespondenceStore lemmas -/

theorem assocLookup_eq_none {κ α : Type} [DecidableEq κ] {k : κ} {l : List (κ × α)}
    (h : k ∉ dictKeys l) : assocLookup k l = none := by
  cases hl : assocLookup k l with
  | none => rfl
  | some v => exact absurd (mem_dictKeys_of_lookup hl) h

theorem assocLookup_erase_self {κ α : Type} [DecidableEq κ] {l : List (κ × α)}
    (h : (dictKeys l).Nodup) (k : κ) : assocLookup k (assocErase k l) = none := by
  induction l with
  | nil => rfl
  | cons p rest ih =>
    obtain ⟨k', v⟩ := p
    simp only [assocErase]
    by_cases hk : k = k'
    · rw [if_pos hk]
      refine assocLookup_eq_none ?_
      subst hk
      exact (List.nodup_cons.mp h).1
    · rw [if_neg hk]
      simp only [assocLookup, if_neg hk]
      exact ih (List.nodup_cons.mp h).2

theorem stepOp_nextId_le (s : Store) (op : StoreOp) : s.nextId ≤ (stepOp s op).nextId := by
  cases op with
  | create img c => exact Nat.le_succ _
  | add sid img c =>
    cases h1 : assocLookup sid s.pointData with
    | none => simp [stepOp, addObservation, h1]
    | some obs =>
      cases h2 : assocLookup img obs with
      | some v => simp [stepOp, addObservation, h1, h2]
      | none => simp [stepOp, addObservation, h1, h2]
  | remove sid img =>
    cases h1 : assocLookup sid s.pointData with
    | none => simp [stepOp, removeObservation, h1]
    | some obs =>
      cases h2 : assocLookup img obs with
      | none => simp [stepOp, removeObservation, h1, h2]
      | some v =>
        simp only [stepOp, removeObservation, h1, h2]
        split <;> simp

theorem runOps_nextId_le :
    ∀ (ops : List StoreOp) (s : Store), s.nextId ≤ (runOps s ops).nextId := by
  intro ops
  induction ops with
  | nil => intro s; exact le_refl _
  | cons op rest ih =>
    intro s
    exact le_trans (stepOp_nextId_le s op) (ih (stepOp s op))

/-- C9: removing the last observation of a track deletes the track; the
track's id is never reassigned to any later-created track (the counter is
monotone and deletion does not decrement it); and a subsequent
`addObservation` on the deleted id fails as unknown-track and leaves the
store unchanged. -/
theorem C9_track_deletion_and_id_reuse :
    (∀ (s : Store) (sid img : Nat) (c : Coord),
      (dictKeys s.pointData).Nodup →
      assocLookup sid s.pointData = some [(img, c)] →
      assocLookup sid (removeObservation s sid img).1.pointData = none) ∧
    (∀ (s : Store) (ops : List StoreOp) (sid img : Nat) (c : Coord),
      storeWF s → sid ∈ dictKeys s.pointData →
      (createTrack (runOps s ops) img c).2 ≠ sid) ∧
    (∀ (s : Store) (sid img : Nat) (c : Coord),
      assocLookup sid s.pointData = none →
      addObservation s sid img c = (s, some StoreError.unknownTrack)) := by
  refine ⟨?_, ?_, ?_⟩
  · intro s sid img c hnd hlk
    have hred : (removeObservation s sid img).1.pointData = assocErase sid s.pointData := by
      simp [removeObservation, hlk, assocLookup, assocErase]
    rw [hred]
    exact assocLookup_erase_self hnd sid
  · intro s ops sid img c hwf hmem heq
    have h1 : sid < s.nextId := hwf sid hmem
    have h2 : s.nextId ≤ (runOps s ops).nextId := runOps_nextId_le ops s
    have h3 : (createTrack (runOps s ops) img c).2 = (runOps s ops).nextId := rfl
    omega
  · intro s sid img c h
    simp [addObservation, h]

/-- Witness for C9: one concrete track whose only observation is removed,
followed by a later creation and a failing `addObservation`. -/
theorem C9_track_deletion_and_id_reuse_witness :
    ((dictKeys storeW.pointData).Nodup ∧
     assocLookup 0 storeW.pointData = some [(0, (1, 1))] ∧
     storeWF storeW ∧ 0 ∈ dictKeys storeW.pointData ∧
     assocLookup 0 (removeObservation storeW 0 0).1.pointData = none) ∧
    (assocLookup 0 (removeObservation storeW 0 0).1.pointData = none) ∧
    ((createTrack (runOps storeW [StoreOp.remove 0 0]) 5 (2, 2)).2 ≠ 0) ∧
    (addObservation (removeObservation storeW 0 0).1 0 1 (3, 3) =
      ((removeObservation storeW 0 0).1, some StoreError.unknownTrack)) :=
  ⟨⟨by decide, by decide, by decide, by decide, by decide⟩,
   C9_track_deletion_and_id_reuse.1 storeW 0 0 (1, 1) (by decide) (by decide),
   C9_track_deletion_and_id_reuse.2.1 storeW [StoreOp.remove 0 0] 0 5 (2, 2)
     (by decide) (by decide),
   C9_track_deletion_and_id_reuse.2.2 (removeObservation storeW 0 0).1 0 1 (3, 3)
     (by decide)⟩

/-- C10: `_do_export` passes the keyword argument `point_set_names`, which
`export_scene_to_gltf` does not declare (and it has no keyword catch-all);
so whenever the pre-checks pass the call raises `TypeError` before any file
is written, and the success branch of `_do_export` is unreachable. -/
theorem C10_do_export_raises_type_error :
    callRejectsKeywords exportSceneToGltfParams exportSceneToGltfHasVarKw
      doExportCallKwargs = true ∧
    doExportFlow true true true true true = ExportOutcome.raisedTypeError ∧
    (∀ a b c d e : Bool, doExportFlow a b c d e ≠ ExportOutcome.success) := by
  decide

/-! ## Vector/matrix algebra lemmas -/

theorem Vec3.add_neg_cancel (v w : Vec3) : (v.add w).add w.neg = v := by
  cases v
  cases w
  simp only [Vec3.add, Vec3.neg, Vec3.mk.injEq]
  refine ⟨by ring, by ring, by ring⟩

theorem Mat3.mulVec_add (A : Mat3) (u w : Vec3) :
    A.mulVec (u.add w) = (A.mulVec u).add (A.mulVec w) := by
  simp only [Mat3.mulVec, Vec3.add, Vec3.dot, Vec3.mk.injEq]
  refine ⟨by ring, by ring, by ring⟩

theorem Mat3.mulVec_mul (A B : Mat3) (v : Vec3) :
    (A.mul B).mulVec v = A.mulVec (B.mulVec v) := by
  simp only [Mat3.mul, Mat3.mulVec, Vec3.dot, Mat3.col0, Mat3.col1, Mat3.col2,
    Vec3.mk.injEq]
  refine ⟨by ring, by ring, by ring⟩

theorem Mat3.id_mulVec (v : Vec3) : Mat3.id.mulVec v = v := by
  cases v
  simp only [Mat3.id, Mat3.mulVec, Vec3.dot, Vec3.mk.injEq]
  refine ⟨by ring, by ring, by ring⟩

theorem invertPose_inverts {p : Pose} (h : p.R.transpose.mul p.R = Mat3.id)
    (v : Vec3) : (invertPose p).apply (p.apply v) = v := by
  show (p.R.transpose.mulVec ((p.R.mulVec v).add p.t)).add
    ((p.R.transpose.mulVec p.t).neg) = v
  rw [Mat3.mulVec_add, ← Mat3.mulVec_mul, h, Mat3.id_mulVec]
  exact Vec3.add_neg_cancel v _

/-- C6: for every registered image, the result mapper stores exactly the
camera-to-world pose `R_c2w = R_w2cᵀ`, `center = −(R_c2w · t)`; and when
`R_w2c` is orthonormal this stored pose is a true inverse of the
world-to-camera transform. -/
theorem C6_pose_inversion (imgs : List SolverImage) :
    (∀ (idx : Nat) (p : Pose), (idx, p) ∈ extractPoses imgs →
      ∃ im ∈ imgs, im.imgIdx = idx ∧
        p.R = im.poseW2C.R.transpose ∧
        p.t = (im.poseW2C.R.transpose.mulVec im.poseW2C.t).neg) ∧
    (∀ im ∈ imgs, im.poseW2C.R.transpose.mul im.poseW2C.R = Mat3.id →
      ∀ v : Vec3, (invertPose im.poseW2C).apply (im.poseW2C.apply v) = v) := by
  constructor
  · intro idx p hmem
    simp only [extractPoses, List.mem_map] at hmem
    obtain ⟨im, hin, heq⟩ := hmem
    have h1 : im.imgIdx = idx := congrArg Prod.fst heq
    have h2 : invertPose im.poseW2C = p := congrArg Prod.snd heq
    exact ⟨im, hin, h1, by rw [← h2]; rfl, by rw [← h2]; rfl⟩
  · intro im _ h v
    exact invertPose_inverts h v

/-- Witness for C6 at a concrete registered image with a 90°-rotation
pose. -/
theorem C6_pose_inversion_witness :
    ((0, invertPose ⟨rotZ90, ⟨1, 2, 3⟩⟩) ∈ extractPoses solverImgsW ∧
     (⟨0, ⟨rotZ90, ⟨1, 2, 3⟩⟩⟩ : SolverImage) ∈ solverImgsW ∧
     rotZ90.transpose.mul rotZ90 = Mat3.id) ∧
    (∃ im ∈ solverImgsW, im.imgIdx = 0 ∧
      (invertPose ⟨rotZ90, ⟨1, 2, 3⟩⟩).R = im.poseW2C.R.transpose ∧
      (invertPose ⟨rotZ90, ⟨1, 2, 3⟩⟩).t =
        (im.poseW2C.R.transpose.mulVec im.poseW2C.t).neg) ∧
    (∀ v : Vec3,
      (invertPose (⟨rotZ90, ⟨1, 2, 3⟩⟩ : Pose)).apply
        ((⟨rotZ90, ⟨1, 2, 3⟩⟩ : Pose).apply v) = v) :=
  ⟨⟨by simp [extractPoses, solverImgsW], by simp [solverImgsW],
    by norm_num [rotZ90, Mat3.transpose, Mat3.mul, Mat3.col0, Mat3.col1, Mat3.col2,
      Vec3.dot, Mat3.id, Mat3.mk.injEq, Vec3.mk.injEq]⟩,
   (C6_pose_inversion solverImgsW).1 0 (invertPose ⟨rotZ90, ⟨1, 2, 3⟩⟩)
     (by simp [extractPoses, solverImgsW]),
   (C6_pose_inversion solverImgsW).2 ⟨0, ⟨rotZ90, ⟨1, 2, 3⟩⟩⟩ (by simp [solverImgsW])
     (by norm_num [rotZ90, Mat3.transpose, Mat3.mul, Mat3.col0, Mat3.col1, Mat3.col2,
       Vec3.dot, Mat3.id, Mat3.mk.injEq, Vec3.mk.injEq])⟩

/-! ## Reprojection-evaluator lemmas -/

theorem evalImageErrors_mem {pose : Pose} {cam : CameraParams}
    {points3D : List (Int × Vec3)} {setOf : List (Int × Nat)} :
    ∀ {obsList : List Obs2D} {sid : Nat} {e : ℚ × ℚ},
      (sid, e) ∈ evalImageErrors pose cam points3D setOf obsList →
      ∃ ob ∈ obsList, ∃ wp,
        ob.point3DId ≠ -1 ∧
        assocLookup ob.point3DId points3D = some wp ∧
        assocLookup ob.point3DId setOf = some sid ∧
        (pose.apply wp).z > 1 / 1000000 ∧
        cam.isSimplePinhole = true ∧
        e = (ob.x - (cam.f * ((pose.apply wp).x / (pose.apply wp).z) + cam.cx),
             ob.y - (cam.f * ((pose.apply wp).y / (pose.apply wp).z) + cam.cy)) := by
  intro obsList
  induction obsList with
  | nil => intro sid e h; simp [evalImageErrors] at h
  | cons ob rest ih =>
    intro sid e h
    have lift : (sid, e) ∈ evalImageErrors pose cam points3D setOf rest →
        ∃ x ∈ ob :: rest, ∃ wp,
          x.point3DId ≠ -1 ∧
          assocLookup x.point3DId points3D = some wp ∧
          assocLookup x.point3DId setOf = some sid ∧
          (pose.apply wp).z > 1 / 1000000 ∧
          cam.isSimplePinhole = true ∧
          e = (x.x - (cam.f * ((pose.apply wp).x / (pose.apply wp).z) + cam.cx),
               x.y - (cam.f * ((pose.apply wp).y / (pose.apply wp).z) + cam.cy)) := by
      intro hrest
      obtain ⟨x, hx, rest_exists⟩ := ih hrest
      exact ⟨x, List.mem_cons_of_mem ob hx, rest_exists⟩
    by_cases h1 : ob.point3DId ≠ -1
    · cases h2 : assocLookup ob.point3DId points3D with
      | none =>
        simp only [evalImageErrors, if_pos h1, h2] at h
        exact lift h
      | some wp =>
        cases h3 : assocLookup ob.point3DId setOf with
        | none =>
          simp only [evalImageErrors, if_pos h1, h2, h3] at h
          exact lift h
        | some sid' =>
          by_cases h4 : (pose.apply wp).z > 1 / 1000000
          · by_cases h5 : cam.isSimplePinhole = true
            · simp only [evalImageErrors, if_pos h1, h2, h3, if_pos h4, if_pos h5] at h
              rcases List.mem_cons.mp h with hhead | htail
              · have hs : sid = sid' := congrArg Prod.fst hhead
                have he : e =
                    (ob.x - (cam.f * ((pose.apply wp).x / (pose.apply wp).z) + cam.cx),
                     ob.y - (cam.f * ((pose.apply wp).y / (pose.apply wp).z) + cam.cy)) :=
                  congrArg Prod.snd hhead
                refine ⟨ob, List.mem_cons_self ob rest, wp, h1, h2, ?_, h4, h5, he⟩
                rw [h3, hs]
              · exact lift htail
            · simp only [evalImageErrors, if_pos h1, h2, h3, if_pos h4, if_neg h5] at h
              exact lift h
          · simp only [evalImageErrors, if_pos h1, h2, h3, if_neg h4] at h
            exact lift h
    · simp only [evalImageErrors, if_neg h1] at h
      exact lift h

theorem evalImageErrors_skip_depth {pose : Pose} {cam : CameraParams}
    {points3D : List (Int × Vec3)} {setOf : List (Int × Nat)}
    {ob : Obs2D} {rest : List Obs2D} {wp : Vec3}
    (h2 : assocLookup ob.point3DId points3D = some wp)
    (h4 : (pose.apply wp).z ≤ 1 / 1000000) :
    evalImageErrors pose cam points3D setOf (ob :: rest) =
      evalImageErrors pose cam points3D setOf rest := by
  have h4' : ¬((pose.apply wp).z > 1 / 1000000) := not_lt.mpr h4
  by_cases h1 : ob.point3DId ≠ -1
  · cases h3 : assocLookup ob.point3DId setOf with
    | none => simp only [evalImageErrors, if_pos h1, h2, h3]
    | some sid => simp only [evalImageErrors, if_pos h1, h2, h3, if_neg h4']
  · simp only [evalImageErrors, if_neg h1]

/-- C5: every stored reprojection entry comes from an observation whose 3-D
point resolved to that track, lay strictly in front of the camera
(depth > 1e-6), and was projected by the pinhole model, with
`(dx, dy) = observed − projected`; the stored magnitude is the Euclidean
norm of that vector; an observation at depth ≤ 1e-6 is skipped without an
error or entry; and a track to which no observation resolves gets no entry
at all. -/
theorem C5_reprojection_errors (pose : Pose) (cam : CameraParams)
    (points3D : List (Int × Vec3)) (setOf : List (Int × Nat)) :
    (∀ (obsList : List Obs2D) (sid : Nat) (e : ℚ × ℚ),
      (sid, e) ∈ evalImageErrors pose cam points3D setOf obsList →
      ∃ ob ∈ obsList, ∃ wp,
        ob.point3DId ≠ -1 ∧
        assocLookup ob.point3DId points3D = some wp ∧
        assocLookup ob.point3DId setOf = some sid ∧
        (pose.apply wp).z > 1 / 1000000 ∧
        cam.isSimplePinhole = true ∧
        e = (ob.x - (cam.f * ((pose.apply wp).x / (pose.apply wp).z) + cam.cx),
             ob.y - (cam.f * ((pose.apply wp).y / (pose.apply wp).z) + cam.cy))) ∧
    (∀ (ob : Obs2D) (rest : List Obs2D) (wp : Vec3),
      assocLookup ob.point3DId points3D = some wp →
      (pose.apply wp).z ≤ 1 / 1000000 →
      evalImageErrors pose cam points3D setOf (ob :: rest) =
        evalImageErrors pose cam points3D setOf rest) ∧
    (∀ (obsList : List Obs2D) (sid : Nat),
      (∀ ob ∈ obsList, assocLookup ob.point3DId setOf ≠ some sid) →
      sid ∉ (evalImageErrors pose cam points3D setOf obsList).map Prod.fst) ∧
    (∀ dx dy : ℚ, errorMagnitude (dx, dy) =
      ‖(WithLp.equiv 2 (Fin 2 → ℝ)).symm ![(dx : ℝ), (dy : ℝ)]‖) := by
  refine ⟨fun _ _ _ h => evalImageErrors_mem h,
    fun _ _ _ h2 h4 => evalImageErrors_skip_depth h2 h4, ?_, ?_⟩
  · intro obsList sid hnone hmem
    obtain ⟨p, hp, hfst⟩ := List.mem_map.mp hmem
    obtain ⟨s', e⟩ := p
    have hs : s' = sid := hfst
    subst hs
    obtain ⟨ob, hob, wp, _, _, h3, _⟩ := evalImageErrors_mem hp
    exact hnone ob hob (by rw [h3])
  · intro dx dy
    rw [EuclideanSpace.norm_eq]
    simp [errorMagnitude, Fin.sum_univ_two, sq_abs]

/-- Witness for C5 at a concrete pose, camera, point set and observation
list. -/
theorem C5_reprojection_errors_witness :
    ((7, ((3 : ℚ), (4 : ℚ))) ∈ evalImageErrors poseIdW camW points3DW setOfW obsListW ∧
     assocLookup obsW0.point3DId points3DW0 = some ⟨5, 5, 0⟩ ∧
     (poseIdW.apply ⟨5, 5, 0⟩).z ≤ 1 / 1000000 ∧
     (∀ ob ∈ obsListW, assocLookup ob.point3DId setOfW ≠ some 3)) ∧
    (∃ ob ∈ obsListW, ∃ wp,
      ob.point3DId ≠ -1 ∧
      assocLookup ob.point3DId points3DW = some wp ∧
      assocLookup ob.point3DId setOfW = some 7 ∧
      (poseIdW.apply wp).z > 1 / 1000000 ∧
      camW.isSimplePinhole = true ∧
      ((3 : ℚ), (4 : ℚ)) =
        (ob.x - (camW.f * ((poseIdW.apply wp).x / (poseIdW.apply wp).z) + camW.cx),
         ob.y - (camW.f * ((poseIdW.apply wp).y / (poseIdW.apply wp).z) + camW.cy))) ∧
    (evalImageErrors poseIdW camW points3DW0 setOfW0 (obsW0 :: []) =
      evalImageErrors poseIdW camW points3DW0 setOfW0 []) ∧
    ((3 : Nat) ∉ (evalImageErrors poseIdW camW points3DW setOfW obsListW).map Prod.fst) ∧
    (errorMagnitude ((3 : ℚ), (4 : ℚ)) =
      ‖(WithLp.equiv 2 (Fin 2 → ℝ)).symm ![((3 : ℚ) : ℝ), ((4 : ℚ) : ℝ)]‖) :=
  ⟨⟨by norm_num [evalImageErrors, poseIdW, camW, points3DW, setOfW, obsListW,
      assocLookup, Pose.apply, Mat3.mulVec, Vec3.dot, Vec3.add, Mat3.id],
    by norm_num [obsW0, points3DW0, assocLookup],
    by norm_num [poseIdW, Pose.apply, Mat3.mulVec, Vec3.dot, Vec3.add, Mat3.id],
    by norm_num [obsListW, setOfW, assocLookup]⟩,
   (C5_reprojection_errors poseIdW camW points3DW setOfW).1 obsListW 7 (3, 4)
     (by norm_num [evalImageErrors, poseIdW, camW, points3DW, setOfW, obsListW,
       assocLookup, Pose.apply, Mat3.mulVec, Vec3.dot, Vec3.add, Mat3.id]),
   (C5_reprojection_errors poseIdW camW points3DW0 setOfW0).2.1 obsW0 [] ⟨5, 5, 0⟩
     (by norm_num [obsW0, points3DW0, assocLookup])
     (by norm_num [poseIdW, Pose.apply, Mat3.mulVec, Vec3.dot, Vec3.add, Mat3.id]),
   (C5_reprojection_errors poseIdW camW points3DW setOfW).2.2.1 obsListW 3
     (by norm_num [obsListW, setOfW, assocLookup]),
   (C5_reprojection_errors poseIdW camW points3DW setOfW).2.2.2 3 4⟩

/-! ## glTF camera-node conversion (C8) -/

/-- C8 counterexample: `2·I` is finite everywhere and grossly non-orthonormal
(every tolerance up to 1/1000 excludes it), yet the conversion emits a camera
node for it — the code never checks orthonormality. -/
theorem C8_counterexample_orthonormality_not_checked :
    FMat3.allFinite fmatTwoI = true ∧ FVec3.allFinite fvecZeroF = true ∧
    ¬ orthonormalWithin (1 / 1000) (FMat3.toMat3 fmatTwoI) ∧
    (cameraNodeMatrix fmatTwoI fvecZeroF).isSome = true := by
  refine ⟨rfl, rfl, ?_, rfl⟩
  norm_num [orthonormalWithin, FMat3.toMat3, fmatTwoI, FVal.toRat, FVec3.toVec3,
    Mat3.transpose, Mat3.mul, Mat3.col0, Mat3.col1, Mat3.col2, Vec3.dot]

/-- C8 (amended): the camera-node conversion rejects every input that
contains non-finite values (no node is emitted); it performs no
orthonormality validation — every all-finite input, orthonormal or not,
yields a camera node. -/
theorem C8_rejects_nonfinite_only :
    (∀ (R : FMat3) (t : FVec3), (R.allFinite && t.allFinite) = false →
      cameraNodeMatrix R t = none) ∧
    (∀ (R : FMat3) (t : FVec3), (R.allFinite && t.allFinite) = true →
      (cameraNodeMatrix R t).isSome = true) := by
  constructor <;> intro R t h <;> simp [cameraNodeMatrix, h]

/-- Witness for the amended C8: a NaN-poisoned pose is rejected; a finite one
is accepted. -/
theorem C8_rejects_nonfinite_only_witness :
    ((fmatNan.allFinite && fvecZeroF.allFinite) = false ∧
     (fmatIdF.allFinite && fvecZeroF.allFinite) = true) ∧
    cameraNodeMatrix fmatNan fvecZeroF = none ∧
    (cameraNodeMatrix fmatIdF fvecZeroF).isSome = true :=
  ⟨⟨rfl, rfl⟩, C8_rejects_nonfinite_only.1 fmatNan fvecZeroF rfl,
   C8_rejects_nonfinite_only.2 fmatIdF fvecZeroF rfl⟩

/-! ## glTF camera definitions (C7) -/

theorem arctan_sub_bounds {a b : ℝ} (ha : 0 ≤ a) (hab : a < b) :
    (b - a) / (1 + b ^ 2) ≤ Real.arctan b - Real.arctan a ∧
    Real.arctan b - Real.arctan a ≤ (b - a) / (1 + a ^ 2) := by
  obtain ⟨c, hc, heq⟩ := exists_hasDerivAt_eq_slope Real.arctan
    (fun x => 1 / (1 + x ^ 2)) hab Real.continuous_arctan.continuousOn
    (fun x _ => Real.hasDerivAt_arctan x)
  have hba : (0 : ℝ) < b - a := sub_pos.mpr hab
  have hc2 : (0 : ℝ) < 1 + c ^ 2 := by positivity
  have hdiff : Real.arctan b - Real.arctan a = (b - a) / (1 + c ^ 2) := by
    have h1 : (Real.arctan b - Real.arctan a) / (b - a) = 1 / (1 + c ^ 2) := heq.symm
    field_simp at h1
    rw [eq_div_iff hc2.ne']
    exact h1
  have hac : a ≤ c := le_of_lt hc.1
  have hcb : c ≤ b := le_of_lt hc.2
  have hcnn : 0 ≤ c := le_trans ha hac
  have hsq1 : 1 + a ^ 2 ≤ 1 + c ^ 2 := by nlinarith
  have hsq2 : 1 + c ^ 2 ≤ 1 + b ^ 2 := by nlinarith
  constructor
  · rw [hdiff]
    gcongr
  · rw [hdiff]
    gcongr

theorem arctan_27_50_bounds :
    (49 / 100 : ℝ) < Real.arctan (27 / 50) ∧ Real.arctan (27 / 50) < (1 / 2 : ℝ) := by
  have h0 : Real.arctan 0 = 0 := Real.arctan_zero
  have s1 := arctan_sub_bounds (a := 0) (b := 3/100) (by norm_num) (by norm_num)
  have s2 := arctan_sub_bounds (a := 3/100) (b := 3/50) (by norm_num) (by norm_num)
  have s3 := arctan_sub_bounds (a := 3/50) (b := 9/100) (by norm_num) (by norm_num)
  have s4 := arctan_sub_bounds (a := 9/100) (b := 3/25) (by norm_num) (by norm_num)
  have s5 := arctan_sub_bounds (a := 3/25) (b := 3/20) (by norm_num) (by norm_num)
  have s6 := arctan_sub_bounds (a := 3/20) (b := 9/50) (by norm_num) (by norm_num)
  have s7 := arctan_sub_bounds (a := 9/50) (b := 21/100) (by norm_num) (by norm_num)
  have s8 := arctan_sub_bounds (a := 21/100) (b := 6/25) (by norm_num) (by norm_num)
  have s9 := arctan_sub_bounds (a := 6/25) (b := 27/100) (by norm_num) (by norm_num)
  have s10 := arctan_sub_bounds (a := 27/100) (b := 3/10) (by norm_num) (by norm_num)
  have s11 := arctan_sub_bounds (a := 3/10) (b := 33/100) (by norm_num) (by norm_num)
  have s12 := arctan_sub_bounds (a := 33/100) (b := 9/25) (by norm_num) (by norm_num)
  have s13 := arctan_sub_bounds (a := 9/25) (b := 39/100) (by norm_num) (by norm_num)
  have s14 := arctan_sub_bounds (a := 39/100) (b := 21/50) (by norm_num) (by norm_num)
  have s15 := arctan_sub_bounds (a := 21/50) (b := 9/20) (by norm_num) (by norm_num)
  have s16 := arctan_sub_bounds (a := 9/20) (b := 12/25) (by norm_num) (by norm_num)
  have s17 := arctan_sub_bounds (a := 12/25) (b := 51/100) (by norm_num) (by norm_num)
  have s18 := arctan_sub_bounds (a := 51/100) (b := 27/50) (by norm_num) (by norm_num)
  norm_num at s1 s2 s3 s4 s5 s6 s7 s8 s9 s10 s11 s12 s13 s14 s15 s16 s17 s18
  constructor
  · linarith [s1.1, s2.1, s3.1, s4.1, s5.1, s6.1, s7.1, s8.1, s9.1, s10.1, s11.1,
      s12.1, s13.1, s14.1, s15.1, s16.1, s17.1, s18.1, h0]
  · linarith [s1.2, s2.2, s3.2, s4.2, s5.2, s6.2, s7.2, s8.2, s9.2, s10.2, s11.2,
      s12.2, s13.2, s14.2, s15.2, s16.2, s17.2, s18.2, h0]

/-- C7 counterexample: `fx = 1e-10` is positive and finite, yet the code
takes the `w/h` fallback (giving `16/9`) while the claim's formula
`max(1e-6, (w·fy)/(h·fx))` gives about `1.78·10¹³`. -/
theorem C7_counterexample_epsilon_guard :
    (0 < (1 / 10000000000 : ℚ)) ∧
    computeAspect (1 / 10000000000) 1000 1920 1080 = 16 / 9 ∧
    specAspect (1 / 10000000000) 1000 1920 1080 = 160000000000000 / 9 ∧
    ((16 : ℚ) / 9) ≠ 160000000000000 / 9 := by
  refine ⟨by norm_num, ?_, ?_, by norm_num⟩
  · rw [computeAspect,
      if_pos (Or.inl (show |(1 / 10000000000 : ℚ)| < 1 / 1000000000 by
        rw [abs_of_pos (by norm_num : (0 : ℚ) < 1 / 10000000000)]; norm_num)),
      if_pos (by norm_num : (1080 : ℚ) > 0), max_eq_right (by norm_num)]
    norm_num
  · rw [specAspect, max_eq_right (by norm_num)]
    norm_num

/-- C7 (amended): for every exported camera whose pinhole intrinsics satisfy
`fx, fy ≥ 1e-9` (with width positive and height ≥ 1), the export computes
exactly `yfov = clip(2·atan((h/2)/fy), 1e-6, π−1e-6)` and
`aspect = max(1e-6, (w·fy)/(h·fx))`; in particular for `f = 1000` and a
`1920×1080` image, `yfov` is within `0.01` of `0.99` rad and the aspect is
exactly `16/9`, within `0.001` of `1.778`. -/
theorem C7_fov_aspect_formulas (fx fy w h : ℚ)
    (hfy : 1 / 1000000000 ≤ fy) (hfx : 1 / 1000000000 ≤ fx) (hh : 1 ≤ h) :
    (computeYfov fy h = specYfov fy h ∧
     computeAspect fx fy w h = specAspect fx fy w h) ∧
    (|computeYfov 1000 1080 - 99 / 100| < 1 / 100 ∧
     computeAspect 1000 1000 1920 1080 = 16 / 9 ∧
     |(16 / 9 : ℚ) - 1778 / 1000| < 1 / 1000) := by
  have hfy0 : (0 : ℚ) < fy := lt_of_lt_of_le (by norm_num) hfy
  have hfx0 : (0 : ℚ) < fx := lt_of_lt_of_le (by norm_num) hfx
  refine ⟨⟨?_, ?_⟩, ?_, ?_, ?_⟩
  · rw [computeYfov, specYfov, if_neg]
    rw [abs_of_pos hfy0]
    exact not_lt.mpr (le_trans (by norm_num) hfy)
  · rw [computeAspect, specAspect, if_neg]
    push_neg
    constructor
    · rw [abs_of_pos hfx0]
      exact le_trans (by norm_num) hfx
    · rw [abs_of_pos (by positivity : (0 : ℚ) < h * fx)]
      calc (1 / 1000000000 : ℚ) ≤ fx := hfx
        _ = 1 * fx := (one_mul fx).symm
        _ ≤ h * fx := mul_le_mul_of_nonneg_right hh (le_of_lt hfx0)
  · have hb := arctan_27_50_bounds
    rw [computeYfov, if_neg (by norm_num : ¬(|(1000 : ℚ)| < 1 / 1000000000))]
    have harg : (((1080 : ℚ) : ℝ) / 2) / ((1000 : ℚ) : ℝ) = 27 / 50 := by norm_num
    rw [harg, clip]
    have hpi : (3 : ℝ) < Real.pi := Real.pi_gt_three
    rw [max_eq_left (by linarith [hb.1]), min_eq_left (by linarith [hb.2])]
    rw [abs_lt]
    constructor <;> linarith [hb.1, hb.2]
  · rw [computeAspect, if_neg (by norm_num), max_eq_right (by norm_num)]
    norm_num
  · rw [abs_lt]
    constructor <;> norm_num

/-- Witness for the amended C7 at the scenario-B intrinsics. -/
theorem C7_fov_aspect_formulas_witness :
    ((1 / 1000000000 : ℚ) ≤ 1000 ∧ (1 : ℚ) ≤ 1080) ∧
    ((computeYfov 1000 1080 = specYfov 1000 1080 ∧
      computeAspect 1000 1000 1920 1080 = specAspect 1000 1000 1920 1080) ∧
     (|computeYfov 1000 1080 - 99 / 100| < 1 / 100 ∧
      computeAspect 1000 1000 1920 1080 = 16 / 9 ∧
      |(16 / 9 : ℚ) - 1778 / 1000| < 1 / 1000)) :=
  ⟨⟨by norm_num, by norm_num⟩,
   C7_fov_aspect_formulas 1000 1000 1920 1080 (by norm_num) (by norm_num) (by norm_num)⟩

end Pointgram
